import Mathlib

/-!
Shallow embedding of the core of `kazuph/mcp-google-image-search`
(`src/api.ts` and the `analyze_images` tool handler), together with
theorems checking the natural-language specification against it.

Strings are modelled as `List Char`; JavaScript `String.prototype.includes`
is `containsSub`, `String.prototype.startsWith` is `startsWithL`,
`toLowerCase` is `toLowerL` (ASCII-faithful).  Network and filesystem
effects are modelled by explicit oracles and event traces.
-/

/-- JS `pre.length <= l.length && l.startsWith(pre)` on char lists. -/
def startsWithL : List Char → List Char → Bool
  | [], _ => true
  | _ :: _, [] => false
  | p :: ps, c :: cs => p = c && startsWithL ps cs

/-- JS `hay.includes(needle)`: `needle` occurs as a contiguous substring of `hay`. -/
def containsSub (needle : List Char) : List Char → Bool
  | [] => needle.isEmpty
  | c :: rest => startsWithL needle (c :: rest) || containsSub needle rest

/-- JS `toLowerCase`, restricted to the ASCII range (the only range the
checks in this code base distinguish). -/
def toLowerL (l : List Char) : List Char := l.map Char.toLower

/-- Whitespace recognized by the JS regex `\s` (ASCII part; the code only
splits criteria strings on it). -/
def isWsChar (c : Char) : Bool :=
  c = ' ' || c = '\t' || c = '\n' || c = '\r' || c = '\x0b' || c = '\x0c'

/-- Worker for `splitWs`: `cur` is the (reversed) token being accumulated,
`inWs` records whether we are inside a whitespace run (whose boundary token
was already emitted). -/
def splitWsAux : List Char → List Char → Bool → List (List Char)
  | [], cur, _ => [cur.reverse]
  | c :: cs, cur, inWs =>
    if isWsChar c then
      if inWs then splitWsAux cs [] true
      else cur.reverse :: splitWsAux cs [] true
    else splitWsAux cs (c :: cur) false

/-- JS `s.split(/\s+/)`: separators are maximal whitespace runs; a leading
or trailing run contributes an empty token, and `"".split` yields `[""]`. -/
def splitWs (l : List Char) : List (List Char) := splitWsAux l [] false

instance {ε α : Type} [DecidableEq ε] [DecidableEq α] : DecidableEq (Except ε α) :=
  fun x y =>
    match x, y with
    | .ok a, .ok b =>
      if h : a = b then isTrue (by rw [h])
      else isFalse (fun he => h (Except.ok.inj he))
    | .error a, .error b =>
      if h : a = b then isTrue (by rw [h])
      else isFalse (fun he => h (Except.error.inj he))
    | .ok _, .error _ => isFalse (fun he => Except.noConfusion he)
    | .error _, .ok _ => isFalse (fun he => Except.noConfusion he)

/-! ## Search gateway state machine (`src/api.ts`) -/

/-- The two providers of `enum ApiProvider`. -/
inductive ApiProvider
  | google
  | serp
deriving DecidableEq

/-- The alternate provider. -/
def ApiProvider.other : ApiProvider → ApiProvider
  | .google => .serp
  | .serp => .google

/-- `interface ApiConfig`: raw environment strings (absent = `undefined`). -/
structure ApiConfig where
  googleApiKey : Option String
  googleCseId : Option String
  serpApiKey : Option String

/-- JS truthiness of an optional string credential: `undefined` and `""`
are falsy. -/
def jsTruthy : Option String → Bool
  | none => false
  | some s => !s.isEmpty

/-- `interface ApiState`. -/
structure ApiState where
  currentProvider : ApiProvider
  googleDisabled : Bool
  serpDisabled : Bool
deriving DecidableEq

/-- The disabled flag of a given provider. -/
def disabledOf (st : ApiState) : ApiProvider → Bool
  | .google => st.googleDisabled
  | .serp => st.serpDisabled

/-- `switchApiProvider` of `src/api.ts` (lines 60–75): switches to the
alternate provider when it is not disabled and its credential set is
truthy, marking the provider being left as disabled.  Returns the JS
function's boolean together with the updated state. -/
def switchApiProvider (cfg : ApiConfig) (st : ApiState) : Bool × ApiState :=
  if st.currentProvider = ApiProvider.google ∧ st.serpDisabled = false ∧
      jsTruthy cfg.serpApiKey = true then
    (true, { currentProvider := ApiProvider.serp, googleDisabled := true,
             serpDisabled := st.serpDisabled })
  else if st.currentProvider = ApiProvider.serp ∧ st.googleDisabled = false ∧
      jsTruthy cfg.googleApiKey = true ∧ jsTruthy cfg.googleCseId = true then
    (true, { currentProvider := ApiProvider.google, googleDisabled := st.googleDisabled,
             serpDisabled := true })
  else (false, st)

/-- "An alternate, not-yet-disabled provider with a full credential set
exists" — the success condition of `switchApiProvider`, stated directly. -/
def altAvailable (cfg : ApiConfig) (st : ApiState) : Bool :=
  match st.currentProvider with
  | .google => !st.serpDisabled && jsTruthy cfg.serpApiKey
  | .serp => !st.googleDisabled && (jsTruthy cfg.googleApiKey && jsTruthy cfg.googleCseId)

/-- An axios error's `response` field: HTTP status plus the optional
`response.data.error` string (absent when `data` or `data.error` is
missing/falsy). -/
structure HttpResponse where
  status : Int
  dataError : Option (List Char)
deriving DecidableEq

/-- A thrown JS error as inspected by `isRateLimitError`: plain `Error`s
(config errors, "No image results found", network failures without a
response) have `response = none`. -/
structure JsError where
  response : Option HttpResponse
deriving DecidableEq

/-- The SerpAPI body phrases checked by `isRateLimitError`. -/
def rateLimitPhrase (msg : List Char) : Bool :=
  containsSub "rate limit".data msg || containsSub "quota".data msg ||
    containsSub "limit exceeded".data msg

/-- `isRateLimitError` of `src/api.ts` (lines 154–174). -/
def isRateLimitError (e : JsError) : Bool :=
  match e.response with
  | none => false
  | some r =>
    (r.status = 429 || r.status = 403) ||
      (r.status = 429 ||
        (match r.dataError with
         | some msg => rateLimitPhrase msg
         | none => false))

/-- `interface ImageSearchResult` of `src/types.ts`.  `is_product`, `size`,
`width`, `height` may be absent at runtime (SerpAPI results are passed
through as-is). -/
structure ImageSearchResult where
  position : Nat
  thumbnail : List Char
  source : List Char
  title : List Char
  link : List Char
  original : List Char
  is_product : Option Bool
  size : Option (List Char)
  width : Option Nat
  height : Option Nat
deriving DecidableEq

/-- Outcome oracle for one `searchImages` invocation: what each backend
would return if its HTTP request were issued during this call. -/
def ProviderOracle := ApiProvider → Except JsError (List ImageSearchResult)

/-- A plain `new Error(...)` (no HTTP response attached). -/
def plainError : JsError := { response := none }

/-- One backend attempt: `searchImagesViaGoogle` / `searchImagesViaSerpAPI`
first throw a plain configuration error when their credentials are not
truthy, otherwise their outcome is the oracle's. -/
def callProvider (cfg : ApiConfig) (oracle : ProviderOracle) :
    ApiProvider → Except JsError (List ImageSearchResult)
  | .google =>
    if jsTruthy cfg.googleApiKey = true ∧ jsTruthy cfg.googleCseId = true then
      oracle .google
    else .error plainError
  | .serp =>
    if jsTruthy cfg.serpApiKey = true then oracle .serp else .error plainError

/-- Result of one `searchImages` call: returned value or propagated error,
the provider state afterwards, and the list of backend attempts made, in
order. -/
structure SearchOutcome where
  result : Except JsError (List ImageSearchResult)
  state : ApiState
  attempts : List ApiProvider

/-- `searchImages` of `src/api.ts` (lines 179–218): try the current
provider; on a rate-limit-classified failure, switch via
`switchApiProvider` and retry once; otherwise (and when the retry fails)
propagate the most recent error. -/
def searchImages (cfg : ApiConfig) (st : ApiState) (oracle : ProviderOracle) :
    SearchOutcome :=
  match callProvider cfg oracle st.currentProvider with
  | .ok res => ⟨.ok res, st, [st.currentProvider]⟩
  | .error e =>
    if isRateLimitError e then
      match switchApiProvider cfg st with
      | (true, st1) =>
        ⟨callProvider cfg oracle st1.currentProvider, st1,
          [st.currentProvider, st1.currentProvider]⟩
      | (false, st1) => ⟨.error e, st1, [st.currentProvider]⟩
    else ⟨.error e, st, [st.currentProvider]⟩

/-- A process run: a sequence of `searchImages` calls threading the
provider state, one oracle per call. -/
def runSearches (cfg : ApiConfig) : ApiState → List ProviderOracle → List SearchOutcome
  | _, [] => []
  | st, o :: os =>
    let out := searchImages cfg st o
    out :: runSearches cfg out.state os

theorem switchApiProvider_fst (cfg : ApiConfig) (st : ApiState) :
    (switchApiProvider cfg st).1 = altAvailable cfg st := by
  obtain ⟨p, g, s⟩ := st
  cases p <;> cases g <;> cases s <;>
    simp [switchApiProvider, altAvailable] <;>
    cases jsTruthy cfg.serpApiKey <;>
    cases jsTruthy cfg.googleApiKey <;>
    cases jsTruthy cfg.googleCseId <;> simp

theorem switchApiProvider_true (cfg : ApiConfig) (st : ApiState)
    (h : altAvailable cfg st = true) :
    (switchApiProvider cfg st).2.currentProvider = st.currentProvider.other ∧
      disabledOf (switchApiProvider cfg st).2 st.currentProvider = true ∧
      disabledOf (switchApiProvider cfg st).2 st.currentProvider.other =
        disabledOf st st.currentProvider.other := by
  obtain ⟨p, g, s⟩ := st
  cases p <;> cases g <;> cases s <;>
    simp_all [switchApiProvider, altAvailable, ApiProvider.other, disabledOf]

theorem switchApiProvider_false (cfg : ApiConfig) (st : ApiState)
    (h : altAvailable cfg st = false) :
    switchApiProvider cfg st = (false, st) := by
  obtain ⟨p, g, s⟩ := st
  cases p <;> cases g <;> cases s <;>
    simp_all [switchApiProvider, altAvailable]

theorem ApiProvider.other_other (p : ApiProvider) : p.other.other = p := by
  cases p <;> rfl

/-- A plain error (no HTTP response) is never classified as rate limiting. -/
theorem isRateLimitError_plain (e : JsError) (h : e.response = none) :
    isRateLimitError e = false := by
  simp [isRateLimitError, h]

theorem searchImages_ok (cfg : ApiConfig) (st : ApiState) (oracle : ProviderOracle)
    (res : List ImageSearchResult)
    (h : callProvider cfg oracle st.currentProvider = .ok res) :
    searchImages cfg st oracle = ⟨.ok res, st, [st.currentProvider]⟩ := by
  simp [searchImages, h]

theorem searchImages_noRateLimit (cfg : ApiConfig) (st : ApiState)
    (oracle : ProviderOracle) (e : JsError)
    (h : callProvider cfg oracle st.currentProvider = .error e)
    (hr : isRateLimitError e = false) :
    searchImages cfg st oracle = ⟨.error e, st, [st.currentProvider]⟩ := by
  simp [searchImages, h, hr]

theorem searchImages_noAlt (cfg : ApiConfig) (st : ApiState)
    (oracle : ProviderOracle) (e : JsError)
    (h : callProvider cfg oracle st.currentProvider = .error e)
    (ha : altAvailable cfg st = false) :
    searchImages cfg st oracle = ⟨.error e, st, [st.currentProvider]⟩ := by
  have hsf := switchApiProvider_false cfg st ha
  simp [searchImages, h, hsf]

theorem searchImages_failover (cfg : ApiConfig) (st : ApiState)
    (oracle : ProviderOracle) (e : JsError)
    (h : callProvider cfg oracle st.currentProvider = .error e)
    (hr : isRateLimitError e = true)
    (ha : altAvailable cfg st = true) :
    searchImages cfg st oracle =
      ⟨callProvider cfg oracle (switchApiProvider cfg st).2.currentProvider,
       (switchApiProvider cfg st).2,
       [st.currentProvider, (switchApiProvider cfg st).2.currentProvider]⟩ := by
  have h1 := switchApiProvider_fst cfg st
  rw [ha] at h1
  have hswe : switchApiProvider cfg st = (true, (switchApiProvider cfg st).2) := by
    rw [← h1]
  unfold searchImages
  rw [h]
  simp only [hr, if_true]
  rw [hswe]

theorem searchImages_attempts_len (cfg : ApiConfig) (st : ApiState)
    (oracle : ProviderOracle) :
    (searchImages cfg st oracle).attempts.length ≤ 2 ∧
      (searchImages cfg st oracle).attempts.head? = some st.currentProvider := by
  cases hc : callProvider cfg oracle st.currentProvider with
  | ok res => rw [searchImages_ok cfg st oracle res hc]; simp
  | error e =>
    cases hr : isRateLimitError e with
    | false => rw [searchImages_noRateLimit cfg st oracle e hc hr]; simp
    | true =>
      cases ha : altAvailable cfg st with
      | false => rw [searchImages_noAlt cfg st oracle e hc ha]; simp
      | true => rw [searchImages_failover cfg st oracle e hc hr ha]; simp

theorem searchImages_state_cases (cfg : ApiConfig) (st : ApiState)
    (oracle : ProviderOracle) :
    (searchImages cfg st oracle).state = st ∨
      (searchImages cfg st oracle).state = (switchApiProvider cfg st).2 := by
  cases hc : callProvider cfg oracle st.currentProvider with
  | ok res => left; rw [searchImages_ok cfg st oracle res hc]
  | error e =>
    cases hr : isRateLimitError e with
    | false => left; rw [searchImages_noRateLimit cfg st oracle e hc hr]
    | true =>
      cases ha : altAvailable cfg st with
      | false => left; rw [searchImages_noAlt cfg st oracle e hc ha]
      | true => right; rw [searchImages_failover cfg st oracle e hc hr ha]

/-- C1: per `searchImages` invocation the gateway first calls the active
provider; on a rate-limit-classified failure (429/403 or a rate/quota
phrase in the response body; plain errors are never rate-limiting) with an
enabled, fully-credentialed alternate it disables the current provider,
switches, and retries exactly once with the alternate; in every other
failure case (and when the retry fails) the most recent error is
propagated; never more than two backend attempts. -/
theorem searchImages_failover_spec (cfg : ApiConfig) (st : ApiState)
    (oracle : ProviderOracle) :
    (searchImages cfg st oracle).attempts.head? = some st.currentProvider ∧
    (searchImages cfg st oracle).attempts.length ≤ 2 ∧
    (∀ e : JsError, e.response = none → isRateLimitError e = false) ∧
    (∀ r : HttpResponse,
      isRateLimitError ⟨some r⟩ =
        (r.status = 429 || r.status = 403 ||
          (match r.dataError with
           | some msg => rateLimitPhrase msg
           | none => false))) ∧
    (∀ res, callProvider cfg oracle st.currentProvider = .ok res →
      searchImages cfg st oracle = ⟨.ok res, st, [st.currentProvider]⟩) ∧
    (∀ e, callProvider cfg oracle st.currentProvider = .error e →
      (isRateLimitError e = true → altAvailable cfg st = true →
        (searchImages cfg st oracle).result =
            callProvider cfg oracle st.currentProvider.other ∧
          (searchImages cfg st oracle).state.currentProvider =
            st.currentProvider.other ∧
          disabledOf (searchImages cfg st oracle).state st.currentProvider = true ∧
          (searchImages cfg st oracle).attempts =
            [st.currentProvider, st.currentProvider.other]) ∧
      ((isRateLimitError e = false ∨ altAvailable cfg st = false) →
        searchImages cfg st oracle = ⟨.error e, st, [st.currentProvider]⟩)) := by
  refine ⟨(searchImages_attempts_len cfg st oracle).2,
    (searchImages_attempts_len cfg st oracle).1,
    isRateLimitError_plain, ?_, searchImages_ok cfg st oracle, ?_⟩
  · intro r
    cases hs : r.dataError <;>
      simp only [isRateLimitError, hs] <;>
      cases h429 : decide (r.status = 429) <;>
      cases h403 : decide (r.status = 403) <;> simp [h429, h403]
  · intro e h
    constructor
    · intro hr ha
      obtain ⟨ho, hd, _⟩ := switchApiProvider_true cfg st ha
      rw [searchImages_failover cfg st oracle e h hr ha]
      exact ⟨by rw [ho], by rw [ho], hd, by rw [ho]⟩
    · rintro (hr | ha)
      · exact searchImages_noRateLimit cfg st oracle e h hr
      · exact searchImages_noAlt cfg st oracle e h ha

/-- When the alternate provider is already disabled, a `searchImages` call
touches only the current provider and leaves the state unchanged. -/
theorem searchImages_locked (cfg : ApiConfig) (st : ApiState)
    (oracle : ProviderOracle)
    (h1 : disabledOf st st.currentProvider.other = true) :
    searchImages cfg st oracle =
      ⟨callProvider cfg oracle st.currentProvider, st, [st.currentProvider]⟩ := by
  cases hc : callProvider cfg oracle st.currentProvider with
  | ok res => rw [searchImages_ok cfg st oracle res hc]
  | error e =>
    have ha : altAvailable cfg st = false := by
      obtain ⟨p, g, s⟩ := st
      cases p <;> simp_all [altAvailable, disabledOf, ApiProvider.other]
    cases hr : isRateLimitError e with
    | false => rw [searchImages_noRateLimit cfg st oracle e hc hr]
    | true => rw [searchImages_noAlt cfg st oracle e hc ha]

theorem runSearches_locked (cfg : ApiConfig) (st : ApiState)
    (h1 : disabledOf st st.currentProvider.other = true) :
    ∀ oracles : List ProviderOracle,
      runSearches cfg st oracles =
        oracles.map (fun o =>
          ⟨callProvider cfg o st.currentProvider, st, [st.currentProvider]⟩) := by
  intro oracles
  induction oracles with
  | nil => rfl
  | cons o os ih =>
    simp only [runSearches, List.map_cons]
    rw [searchImages_locked cfg st o h1]
    exact congrArg _ ih

/-- C2: a disabled flag set by failover is sticky: once a rate-limited call
has failed over from provider A to provider B, every later `searchImages`
call in the same process attempts only B (never A again), B stays the
active provider, and A stays disabled. -/
theorem failover_sticky_spec (cfg : ApiConfig) (st : ApiState)
    (oracle0 : ProviderOracle) (e : JsError)
    (h : callProvider cfg oracle0 st.currentProvider = .error e)
    (hr : isRateLimitError e = true)
    (ha : altAvailable cfg st = true) :
    (searchImages cfg st oracle0).state.currentProvider = st.currentProvider.other ∧
    disabledOf (searchImages cfg st oracle0).state st.currentProvider = true ∧
    ∀ oracles : List ProviderOracle,
      runSearches cfg (searchImages cfg st oracle0).state oracles =
        oracles.map (fun o =>
          ⟨callProvider cfg o st.currentProvider.other,
           (searchImages cfg st oracle0).state,
           [st.currentProvider.other]⟩) := by
  have heq := searchImages_failover cfg st oracle0 e h hr ha
  obtain ⟨ho, hd, _⟩ := switchApiProvider_true cfg st ha
  have hst : (searchImages cfg st oracle0).state = (switchApiProvider cfg st).2 := by
    rw [heq]
  have hco : (searchImages cfg st oracle0).state.currentProvider =
      st.currentProvider.other := by rw [hst, ho]
  have hdis : disabledOf (searchImages cfg st oracle0).state st.currentProvider =
      true := by rw [hst]; exact hd
  refine ⟨hco, hdis, ?_⟩
  intro oracles
  have hlock : disabledOf (searchImages cfg st oracle0).state
      ((searchImages cfg st oracle0).state.currentProvider).other = true := by
    rw [hco, ApiProvider.other_other]; exact hdis
  rw [runSearches_locked cfg (searchImages cfg st oracle0).state hlock oracles]
  simp only [hco]

/-- States the process can be in: the post-initialization state (both
disabled flags clear) and anything a sequence of `searchImages` calls can
produce from it. -/
inductive ReachableState (cfg : ApiConfig) : ApiState → Prop
  | init (p : ApiProvider) : ReachableState cfg ⟨p, false, false⟩
  | step {st : ApiState} (oracle : ProviderOracle) :
      ReachableState cfg st → ReachableState cfg (searchImages cfg st oracle).state

theorem switchApiProvider_preserves_notBoth (cfg : ApiConfig) (st : ApiState)
    (h : st.googleDisabled = false ∨ st.serpDisabled = false) :
    (switchApiProvider cfg st).2.googleDisabled = false ∨
      (switchApiProvider cfg st).2.serpDisabled = false := by
  obtain ⟨p, g, s⟩ := st
  cases p <;> cases g <;> cases s <;>
    simp_all [switchApiProvider] <;>
    cases jsTruthy cfg.serpApiKey <;>
    cases jsTruthy cfg.googleApiKey <;>
    cases jsTruthy cfg.googleCseId <;> simp_all

/-- C7: in every reachable provider state at most one disabled flag is set,
and `searchImages` never makes more than two backend attempts; when no
alternate is available the last error is propagated after the single
attempt instead of looping. -/
theorem providerState_invariant (cfg : ApiConfig) (st : ApiState)
    (h : ReachableState cfg st) :
    (st.googleDisabled = false ∨ st.serpDisabled = false) ∧
    ∀ oracle : ProviderOracle,
      (searchImages cfg st oracle).attempts.length ≤ 2 ∧
      (altAvailable cfg st = false →
        ∀ e, callProvider cfg oracle st.currentProvider = .error e →
          searchImages cfg st oracle = ⟨.error e, st, [st.currentProvider]⟩) := by
  refine ⟨?_, fun oracle =>
    ⟨(searchImages_attempts_len cfg st oracle).1,
     fun ha e hc => searchImages_noAlt cfg st oracle e hc ha⟩⟩
  induction h with
  | init p => exact Or.inl rfl
  | step oracle hst ih =>
    rcases searchImages_state_cases cfg _ oracle with hs | hs
    · rw [hs]; exact ih
    · rw [hs]; exact switchApiProvider_preserves_notBoth cfg _ ih

/-! Concrete instances for the gateway theorems. -/

/-- A minimal concrete search result. -/
def imgW : ImageSearchResult :=
  ⟨1, [], [], [], [], [], some false, none, none, none⟩

/-- A configuration with both credential sets present. -/
def cfgW : ApiConfig := ⟨some "gk", some "cid", some "sk"⟩

/-- The post-initialization state with Google active. -/
def stW : ApiState := ⟨.google, false, false⟩

/-- An HTTP 429 error. -/
def errW : JsError := ⟨some ⟨429, none⟩⟩

/-- Oracle for the failover call: Google rate-limited, SerpAPI succeeds. -/
def oracleW : ProviderOracle := fun p =>
  match p with
  | .google => .error errW
  | .serp => .ok [imgW]

/-- Oracle for subsequent calls: every backend succeeds. -/
def oracle2W : ProviderOracle := fun _ => .ok [imgW]

theorem searchImages_failover_spec_instance :
    (searchImages cfgW stW oracleW).result = Except.ok [imgW] ∧
    (searchImages cfgW stW oracleW).state.currentProvider = ApiProvider.serp ∧
    disabledOf (searchImages cfgW stW oracleW).state ApiProvider.google = true ∧
    (searchImages cfgW stW oracleW).attempts = [ApiProvider.google, ApiProvider.serp] := by
  have h := ((searchImages_failover_spec cfgW stW oracleW).2.2.2.2.2 errW rfl).1
    (by decide) (by decide)
  obtain ⟨h1, h2, h3, h4⟩ := h
  exact ⟨by rw [h1]; rfl, by rw [h2]; rfl, h3, by rw [h4]; rfl⟩

theorem failover_sticky_spec_instance :
    runSearches cfgW (searchImages cfgW stW oracleW).state [oracle2W, oracle2W] =
      [⟨.ok [imgW], ⟨ApiProvider.serp, true, false⟩, [ApiProvider.serp]⟩,
       ⟨.ok [imgW], ⟨ApiProvider.serp, true, false⟩, [ApiProvider.serp]⟩] := by
  have h := (failover_sticky_spec cfgW stW oracleW errW rfl (by decide) (by decide)).2.2
    [oracle2W, oracle2W]
  rw [h]
  rfl

theorem providerState_invariant_instance :
    (stW.googleDisabled = false ∨ stW.serpDisabled = false) ∧
    ∀ oracle : ProviderOracle,
      (searchImages cfgW stW oracle).attempts.length ≤ 2 ∧
      (altAvailable cfgW stW = false →
        ∀ e, callProvider cfgW oracle stW.currentProvider = .error e →
          searchImages cfgW stW oracle = ⟨.error e, stW, [stW.currentProvider]⟩) :=
  providerState_invariant cfgW stW (ReachableState.init ApiProvider.google)

/-! ## Relevance scoring (`calculateRelevanceScore`, `src/api.ts` 223–251) -/

/-- `calculateRelevanceScore` of `src/api.ts`: +2 per whitespace-split
keyword of the lower-cased criteria occurring in the lower-cased title;
a resolution bonus when `image.width && image.height` is truthy in JS
(both present and nonzero); +1 unless `is_product` is `true`. -/
def calculateRelevanceScore (image : ImageSearchResult) (criteria : List Char) : Nat :=
  (splitWs (toLowerL criteria)).foldl
      (fun score keyword =>
        if containsSub keyword (toLowerL image.title) = true then score + 2 else score) 0
    + (match image.width, image.height with
       | some w, some h =>
         if w ≠ 0 ∧ h ≠ 0 then
           if w * h > 1000000 then 3 else if w * h > 500000 then 2 else 1
         else 0
       | _, _ => 0)
    + (if image.is_product = some true then 0 else 1)

theorem foldl_twoPoints {α : Type} (p : α → Bool) (l : List α) :
    ∀ acc : Nat,
      l.foldl (fun score kw => if p kw = true then score + 2 else score) acc =
        acc + 2 * l.countP p := by
  induction l with
  | nil => intro acc; simp
  | cons a l ih =>
    intro acc
    cases ha : p a
    · simp [List.countP_cons, ha, ih]
    · simp [List.countP_cons, ha, ih]
      ring

theorem countP_replicate_of_pos {α : Type} (p : α → Bool) (x : α)
    (hx : p x = true) (n : Nat) : (List.replicate n x).countP p = n := by
  induction n with
  | zero => rfl
  | succ n ih => simp [List.replicate_succ, List.countP_cons, hx, ih]

/-- The score of an image, expressed in closed form (the equality needs
the data-model invariant that known dimensions are positive, since JS
treats a present-but-zero width as falsy). -/
theorem calculateRelevanceScore_eq (image : ImageSearchResult) (criteria : List Char)
    (hwh : ∀ w h, image.width = some w → image.height = some h → 0 < w ∧ 0 < h) :
    calculateRelevanceScore image criteria =
      2 * (splitWs (toLowerL criteria)).countP
            (fun kw => containsSub kw (toLowerL image.title)) +
        (match image.width, image.height with
         | some w, some h =>
           if w * h > 1000000 then 3 else if w * h > 500000 then 2 else 1
         | _, _ => 0) +
        (if image.is_product = some true then 0 else 1) := by
  show (splitWs (toLowerL criteria)).foldl _ 0 + _ + _ = _
  rw [foldl_twoPoints]
  cases hw : image.width with
  | none => simp
  | some w =>
    cases hh : image.height with
    | none => simp
    | some h =>
      obtain ⟨hw0, hh0⟩ := hwh w h hw hh
      simp [Nat.pos_iff_ne_zero.mp hw0, Nat.pos_iff_ne_zero.mp hh0]

/-- Title used by the unboundedness argument. -/
def imgT : ImageSearchResult := ⟨1, [], [], ['a'], [], [], none, none, none, none⟩

/-- A criteria string with `n` keyword tokens `"a"` (plus the trailing
empty token produced by JS `split`). -/
def critN : Nat → List Char
  | 0 => []
  | n + 1 => 'a' :: ' ' :: critN n

theorem splitWsAux_critN (n : Nat) : ∀ b : Bool,
    splitWsAux (critN n) [] b = List.replicate n ['a'] ++ [[]] := by
  induction n with
  | zero => intro b; rfl
  | succ n ih =>
    intro b
    have ha : isWsChar 'a' = false := by decide
    have hsp : isWsChar ' ' = true := by decide
    have h1 : splitWsAux (critN (n + 1)) [] b = ['a'] :: splitWsAux (critN n) [] true := by
      simp [critN, splitWsAux, ha, hsp]
    rw [h1, ih true, List.replicate_succ]
    rfl

theorem splitWs_critN (n : Nat) :
    splitWs (critN n) = List.replicate n ['a'] ++ [[]] := splitWsAux_critN n false

theorem toLowerL_critN (n : Nat) : toLowerL (critN n) = critN n := by
  induction n with
  | zero => rfl
  | succ n ih =>
    simp only [critN, toLowerL, List.map_cons]
    rw [show Char.toLower 'a' = 'a' from by decide,
      show Char.toLower ' ' = ' ' from by decide]
    exact congrArg _ (congrArg _ ih)

/-- C8: the relevance score is exactly 2 points per whitespace-split
lower-cased criteria token occurring in the lower-cased title (counted
with multiplicity), plus the resolution bonus (+3 / +2 / +1 by area) when
both dimensions are known, plus +1 unless `is_product` is true; it is a
total function into ℕ with no enforced upper bound. -/
theorem calculateRelevanceScore_spec (image : ImageSearchResult) (criteria : List Char)
    (hwh : ∀ w h, image.width = some w → image.height = some h → 0 < w ∧ 0 < h) :
    (calculateRelevanceScore image criteria =
      2 * (splitWs (toLowerL criteria)).countP
            (fun kw => containsSub kw (toLowerL image.title)) +
        (match image.width, image.height with
         | some w, some h =>
           if w * h > 1000000 then 3 else if w * h > 500000 then 2 else 1
         | _, _ => 0) +
        (if image.is_product = some true then 0 else 1)) ∧
    (∀ n : Nat, ∃ img c, n < calculateRelevanceScore img c) := by
  refine ⟨calculateRelevanceScore_eq image criteria hwh, fun n => ⟨imgT, critN n, ?_⟩⟩
  rw [calculateRelevanceScore_eq imgT (critN n)
    (fun w h hw _ => by simp [imgT] at hw)]
  rw [toLowerL_critN, splitWs_critN]
  rw [List.countP_append, countP_replicate_of_pos _ _ (by decide) n]
  simp [imgT]
  omega

/-- A concrete scored image: two matched keywords (+4), area above one
megapixel (+3), not a product (+1). -/
def imgW2 : ImageSearchResult :=
  ⟨1, [], [], "red car".data, [], [], some false, none, some 1000, some 1200⟩

theorem calculateRelevanceScore_spec_instance :
    calculateRelevanceScore imgW2 "red car".data = 8 := by
  have h := (calculateRelevanceScore_spec imgW2 "red car".data
    (fun w h hw hh => by simp [imgW2] at hw hh; omega)).1
  rw [h]
  decide

/-! ## Analyze pipeline (the `analyze_images` tool handler) -/

/-- One entry of the handler's output: the input image, its score, and the
rank-based recommendation string. -/
structure AnalyzedImage where
  img : ImageSearchResult
  relevanceScore : Nat
  recommendation : List Char

/-- The handler's rank-to-tier mapping
(`index < 3 ? "Highly recommended" : index < 6 ? "Recommended" : "Standard option"`). -/
def recommendationFor (i : Nat) : List Char :=
  if i < 3 then "Highly recommended".data
  else if i < 6 then "Recommended".data
  else "Standard option".data

/-- The handler's map step pairing each result with its relevance score. -/
def scoreAll (results : List ImageSearchResult) (criteria : List Char) :
    List (ImageSearchResult × Nat) :=
  results.map (fun img => (img, calculateRelevanceScore img criteria))

/-- Stable insertion into a descending-by-score list: the new element goes
after every element with a strictly greater score and before the rest. -/
def insertDesc (x : ImageSearchResult × Nat) :
    List (ImageSearchResult × Nat) → List (ImageSearchResult × Nat)
  | [] => [x]
  | y :: ys => if x.2 < y.2 then y :: insertDesc x ys else x :: y :: ys

/-- The handler's `sort((a, b) => (b.relevanceScore || 0) - (a.relevanceScore || 0))`:
JS `Array.prototype.sort` is stable (ES2019), so it is the stable
descending sort by score, here as stable insertion sort. -/
def sortByScoreDesc (l : List (ImageSearchResult × Nat)) :
    List (ImageSearchResult × Nat) :=
  l.foldr insertDesc []

/-- The handler's final map adding `recommendation` by output index. -/
def addRecommendations : Nat → List (ImageSearchResult × Nat) → List AnalyzedImage
  | _, [] => []
  | i, x :: rest => ⟨x.1, x.2, recommendationFor i⟩ :: addRecommendations (i + 1) rest

/-- The `analyze_images` handler: score, sort descending (stably), then
attach rank-based recommendations. -/
def analyzeImages (results : List ImageSearchResult) (criteria : List Char) :
    List AnalyzedImage :=
  addRecommendations 0 (sortByScoreDesc (scoreAll results criteria))

theorem insertDesc_perm (x : ImageSearchResult × Nat)
    (l : List (ImageSearchResult × Nat)) : (insertDesc x l).Perm (x :: l) := by
  induction l with
  | nil => rfl
  | cons y ys ih =>
    by_cases hxy : x.2 < y.2
    · simp only [insertDesc, if_pos hxy]
      exact (ih.cons y).trans (List.Perm.swap x y ys)
    · simp only [insertDesc, if_neg hxy]
      exact List.Perm.refl _

theorem mem_insertDesc {z x : ImageSearchResult × Nat}
    {l : List (ImageSearchResult × Nat)} (h : z ∈ insertDesc x l) :
    z = x ∨ z ∈ l := by
  have := (insertDesc_perm x l).mem_iff.mp h
  simpa using this

theorem insertDesc_sorted (x : ImageSearchResult × Nat)
    (l : List (ImageSearchResult × Nat))
    (h : l.Pairwise (fun a b => b.2 ≤ a.2)) :
    (insertDesc x l).Pairwise (fun a b => b.2 ≤ a.2) := by
  induction l with
  | nil => simp [insertDesc]
  | cons y ys ih =>
    rw [List.pairwise_cons] at h
    by_cases hxy : x.2 < y.2
    · simp only [insertDesc, if_pos hxy]
      rw [List.pairwise_cons]
      refine ⟨fun z hz => ?_, ih h.2⟩
      rcases mem_insertDesc hz with rfl | hz
      · exact Nat.le_of_lt hxy
      · exact h.1 z hz
    · simp only [insertDesc, if_neg hxy]
      rw [List.pairwise_cons]
      refine ⟨fun z hz => ?_, List.pairwise_cons.mpr h⟩
      rcases List.mem_cons.mp hz with rfl | hz2
      · exact Nat.le_of_not_lt hxy
      · exact le_trans (h.1 z hz2) (Nat.le_of_not_lt hxy)

theorem filter_insertDesc (s : Nat) (x : ImageSearchResult × Nat)
    (l : List (ImageSearchResult × Nat)) :
    (insertDesc x l).filter (fun a => decide (a.2 = s)) =
      if x.2 = s then x :: l.filter (fun a => decide (a.2 = s))
      else l.filter (fun a => decide (a.2 = s)) := by
  induction l with
  | nil => by_cases hx : x.2 = s <;> simp [insertDesc, hx]
  | cons y ys ih =>
    by_cases hxy : x.2 < y.2
    · simp only [insertDesc, if_pos hxy]
      by_cases hx : x.2 = s
      · have hy : ¬(y.2 = s) := by omega
        simp [List.filter_cons, hx, hy, ih]
      · by_cases hy : y.2 = s <;> simp [List.filter_cons, hx, hy, ih]
    · simp only [insertDesc, if_neg hxy]
      by_cases hx : x.2 = s <;> simp [List.filter_cons, hx]

theorem sortByScoreDesc_perm (l : List (ImageSearchResult × Nat)) :
    (sortByScoreDesc l).Perm l := by
  induction l with
  | nil => rfl
  | cons x xs ih =>
    exact (insertDesc_perm x (sortByScoreDesc xs)).trans (ih.cons x)

theorem sortByScoreDesc_sorted (l : List (ImageSearchResult × Nat)) :
    (sortByScoreDesc l).Pairwise (fun a b => b.2 ≤ a.2) := by
  induction l with
  | nil => simp [sortByScoreDesc]
  | cons x xs ih => exact insertDesc_sorted x (sortByScoreDesc xs) ih

theorem sortByScoreDesc_filter (s : Nat) (l : List (ImageSearchResult × Nat)) :
    (sortByScoreDesc l).filter (fun a => decide (a.2 = s)) =
      l.filter (fun a => decide (a.2 = s)) := by
  induction l with
  | nil => rfl
  | cons x xs ih =>
    show (insertDesc x (sortByScoreDesc xs)).filter _ = _
    rw [filter_insertDesc]
    by_cases hx : x.2 = s <;> simp [List.filter_cons, hx, ih]

theorem addRecommendations_length (l : List (ImageSearchResult × Nat)) :
    ∀ i, (addRecommendations i l).length = l.length := by
  induction l with
  | nil => intro i; rfl
  | cons x xs ih => intro i; simp [addRecommendations, ih]

theorem addRecommendations_getElem (l : List (ImageSearchResult × Nat)) :
    ∀ i j, (addRecommendations i l)[j]? =
      l[j]?.map (fun x => (⟨x.1, x.2, recommendationFor (i + j)⟩ : AnalyzedImage)) := by
  induction l with
  | nil => intro i j; simp [addRecommendations]
  | cons x xs ih =>
    intro i j
    cases j with
    | zero => simp [addRecommendations]
    | succ j =>
      simp only [addRecommendations, List.getElem?_cons_succ, ih (i + 1) j]
      have : i + 1 + j = i + (j + 1) := by omega
      rw [this]

theorem addRecommendations_filter (s : Nat) (l : List (ImageSearchResult × Nat)) :
    ∀ i, ((addRecommendations i l).filter
        (fun a => decide (a.relevanceScore = s))).map (fun a => a.img) =
      (l.filter (fun x => decide (x.2 = s))).map Prod.fst := by
  induction l with
  | nil => intro i; rfl
  | cons x xs ih =>
    intro i
    by_cases hx : x.2 = s <;>
      simp [addRecommendations, List.filter_cons, hx, ih]

theorem addRecommendations_mapimg (l : List (ImageSearchResult × Nat)) :
    ∀ i, (addRecommendations i l).map (fun a => a.img) = l.map Prod.fst := by
  induction l with
  | nil => intro i; rfl
  | cons x xs ih => intro i; simp [addRecommendations, ih]

theorem mem_addRecommendations {a : AnalyzedImage}
    {l : List (ImageSearchResult × Nat)} :
    ∀ {i}, a ∈ addRecommendations i l → ∃ x ∈ l, a.relevanceScore = x.2 := by
  induction l with
  | nil => intro i h; simp [addRecommendations] at h
  | cons x xs ih =>
    intro i h
    rcases List.mem_cons.mp h with rfl | h2
    · exact ⟨x, List.mem_cons_self x xs, rfl⟩
    · obtain ⟨y, hy, hey⟩ := ih h2
      exact ⟨y, List.mem_cons_of_mem x hy, hey⟩

theorem addRecommendations_sorted (l : List (ImageSearchResult × Nat))
    (h : l.Pairwise (fun a b => b.2 ≤ a.2)) :
    ∀ i, (addRecommendations i l).Pairwise
      (fun a b => b.relevanceScore ≤ a.relevanceScore) := by
  induction l with
  | nil => intro i; simp [addRecommendations]
  | cons x xs ih =>
    rw [List.pairwise_cons] at h
    intro i
    rw [addRecommendations, List.pairwise_cons]
    refine ⟨fun b hb => ?_, ih h.2 (i + 1)⟩
    obtain ⟨y, hy, hey⟩ := mem_addRecommendations hb
    rw [hey]
    exact h.1 y hy

/-- C9: the analyze operation outputs the scored results in descending
score order, stably (for each score value, the filtered subsequence equals
the input subsequence with that score), as a permutation of the input of
the same length, and assigns the recommendation tier purely by output
index (0–2 highly recommended, 3–5 recommended, 6+ standard). -/
theorem analyzeImages_spec (results : List ImageSearchResult) (criteria : List Char) :
    (analyzeImages results criteria).Pairwise
        (fun a b => b.relevanceScore ≤ a.relevanceScore) ∧
    (∀ s : Nat,
      ((analyzeImages results criteria).filter
          (fun a => decide (a.relevanceScore = s))).map (fun a => a.img) =
        results.filter (fun r => decide (calculateRelevanceScore r criteria = s))) ∧
    ((analyzeImages results criteria).map (fun a => a.img)).Perm results ∧
    (analyzeImages results criteria).length = results.length ∧
    (∀ i a, (analyzeImages results criteria)[i]? = some a →
      a.recommendation = recommendationFor i) := by
  refine ⟨?_, ?_, ?_, ?_, ?_⟩
  · exact addRecommendations_sorted _ (sortByScoreDesc_sorted _) 0
  · intro s
    unfold analyzeImages
    rw [addRecommendations_filter, sortByScoreDesc_filter]
    unfold scoreAll
    rw [List.filter_map]
    have h1 : ((fun (a : ImageSearchResult × Nat) => decide (a.2 = s)) ∘
        (fun img => (img, calculateRelevanceScore img criteria))) =
        fun r => decide (calculateRelevanceScore r criteria = s) := rfl
    have h2 : (Prod.fst ∘
        (fun img : ImageSearchResult => (img, calculateRelevanceScore img criteria))) =
        fun r : ImageSearchResult => r := rfl
    rw [h1, List.map_map, h2, List.map_id']
  · unfold analyzeImages
    rw [addRecommendations_mapimg]
    have h2 : (Prod.fst ∘
        (fun img : ImageSearchResult => (img, calculateRelevanceScore img criteria))) =
        fun r : ImageSearchResult => r := rfl
    have h3 : List.map Prod.fst (scoreAll results criteria) = results := by
      unfold scoreAll
      rw [List.map_map, h2, List.map_id']
    have h := (sortByScoreDesc_perm (scoreAll results criteria)).map Prod.fst
    rw [h3] at h
    exact h
  · unfold analyzeImages
    rw [addRecommendations_length, (sortByScoreDesc_perm _).length_eq]
    simp [scoreAll]
  · intro i a h
    unfold analyzeImages at h
    rw [addRecommendations_getElem] at h
    cases hx : (sortByScoreDesc (scoreAll results criteria))[i]? with
    | none => rw [hx] at h; simp at h
    | some x =>
      rw [hx] at h
      simp only [Option.map_some', Option.some.injEq] at h
      rw [← h]
      simp

theorem analyzeImages_spec_instance :
    analyzeImages [imgW] [] = [⟨imgW, 3, "Highly recommended".data⟩] ∧
    (⟨imgW, 3, "Highly recommended".data⟩ : AnalyzedImage).recommendation =
      recommendationFor 0 := by
  constructor
  · rfl
  · exact (analyzeImages_spec [imgW] []).2.2.2.2 0 _ (by rfl)

/-! ## URL safety validation (`isValidImageUrl`, `src/api.ts` 320–342)

The code calls WHATWG `new URL(url)`.  `parseUrl` models that parser on
the URL shapes relevant here: scheme recognition, authority extraction
(with userinfo and port stripping and the special-scheme slash handling),
and hostname lower-casing.  Percent-decoding and punycode are not
modelled; hostnames in scope are plain ASCII. -/

def isAlphaChar (c : Char) : Bool :=
  (decide ('a' ≤ c) && decide (c ≤ 'z')) || (decide ('A' ≤ c) && decide (c ≤ 'Z'))

def isDigitChar (c : Char) : Bool := decide ('0' ≤ c) && decide (c ≤ '9')

def isSchemeChar (c : Char) : Bool :=
  isAlphaChar c || isDigitChar c || c == '+' || c == '-' || c == '.'

/-- A parsed URL: `protocol` keeps the trailing colon (as in JS),
`hostname` is lower-cased. -/
structure ParsedUrl where
  protocol : List Char
  hostname : List Char
deriving DecidableEq

/-- WHATWG special schemes (those whose parsing treats missing or extra
slashes after the colon leniently). -/
def specialSchemes : List (List Char) :=
  ["http".data, "https".data, "ws".data, "wss".data, "ftp".data, "file".data]

/-- Drop a `user:pass@` userinfo part (everything up to the last `@`). -/
def stripUserinfo (a : List Char) : List Char :=
  if a.contains '@' then (a.reverse.takeWhile (fun c => !(c == '@'))).reverse else a

/-- A valid port remainder: empty, or `:` followed by digits only. -/
def portOk : List Char → Bool
  | [] => true
  | ':' :: ds => ds.all isDigitChar
  | _ => false

/-- Split `host[:port]` (with `[...]` IPv6 bracket handling), failing on a
malformed port. -/
def hostOfAuthority (hp : List Char) : Option (List Char) :=
  match hp with
  | '[' :: _ =>
    if hp.contains ']' then
      let host := hp.takeWhile (fun c => !(c == ']')) ++ [']']
      if portOk (hp.drop host.length) then some (toLowerL host) else none
    else none
  | _ =>
    let host := hp.takeWhile (fun c => !(c == ':'))
    if portOk (hp.drop host.length) then some (toLowerL host) else none

/-- Model of WHATWG `new URL` restricted to protocol and hostname:
returns `none` exactly when the constructor would throw. -/
def parseUrl (s : List Char) : Option ParsedUrl :=
  let schemeRaw := s.takeWhile (fun c => !(c == ':'))
  match s.drop schemeRaw.length with
  | ':' :: afterColon =>
    match schemeRaw with
    | [] => none
    | c0 :: cs =>
      if isAlphaChar c0 && cs.all isSchemeChar then
        let scheme := toLowerL schemeRaw
        if specialSchemes.contains scheme then
          let afterSlashes := afterColon.dropWhile (fun c => c == '/' || c == '\\')
          let authority := afterSlashes.takeWhile
            (fun c => !(c == '/' || c == '\\' || c == '?' || c == '#'))
          match hostOfAuthority (stripUserinfo authority) with
          | none => none
          | some host =>
            if host = [] ∧ scheme ≠ "file".data then none
            else some ⟨scheme ++ [':'], host⟩
        else
          match afterColon with
          | '/' :: '/' :: r =>
            let authority := r.takeWhile (fun c => !(c == '/' || c == '?' || c == '#'))
            match hostOfAuthority (stripUserinfo authority) with
            | none => none
            | some host => some ⟨scheme ++ [':'], host⟩
          | _ => some ⟨scheme ++ [':'], []⟩
      else none
  | _ => none

/-- Denotation of the blocked regex `^172\.(1[6-9]|2[0-9]|3[01])\.`. -/
def startsWith172Private (h : List Char) : Bool :=
  match h with
  | '1' :: '7' :: '2' :: '.' :: a :: b :: '.' :: _ =>
    (a == '1' && decide ('6' ≤ b) && decide (b ≤ '9')) ||
    (a == '2' && decide ('0' ≤ b) && decide (b ≤ '9')) ||
    (a == '3' && (b == '0' || b == '1'))
  | _ => false

/-- The `blockedPatterns` array of `isValidImageUrl`: exact `localhost`
(case-insensitively) and the private/link-local network name patterns. -/
def blockedHostname (h : List Char) : Bool :=
  decide (toLowerL h = "localhost".data) ||
  startsWithL "127.".data h ||
  startsWithL "169.254.".data h ||
  startsWithL "192.168.".data h ||
  startsWithL "10.".data h ||
  startsWith172Private h

/-- `isValidImageUrl` of `src/api.ts`: false on parse failure, non-http(s)
scheme, or a blocked hostname. -/
def isValidImageUrl (s : List Char) : Bool :=
  match parseUrl s with
  | none => false
  | some u =>
    if u.protocol = "http:".data ∨ u.protocol = "https:".data then
      !(blockedHostname u.hostname)
    else false

/-- C5: `isValidImageUrl` returns false iff the URL fails to parse, has a
non-http(s) scheme, or its hostname is `localhost` (case-insensitive) or
starts with 127., 169.254., 192.168., 10., or 172.16.–172.31.; it is true
for every other parseable http/https URL — in particular on the spec's
example inputs. -/
theorem isValidImageUrl_spec :
    (∀ h : List Char, blockedHostname h = true ↔
      (toLowerL h = "localhost".data ∨
        startsWithL "127.".data h = true ∨
        startsWithL "169.254.".data h = true ∨
        startsWithL "192.168.".data h = true ∨
        startsWithL "10.".data h = true ∨
        startsWith172Private h = true)) ∧
    (∀ s : List Char, isValidImageUrl s = true ↔
      ∃ u, parseUrl s = some u ∧
        (u.protocol = "http:".data ∨ u.protocol = "https:".data) ∧
        blockedHostname u.hostname = false) ∧
    isValidImageUrl "http://127.0.0.1/x".data = false ∧
    isValidImageUrl "http://192.168.1.1".data = false ∧
    isValidImageUrl "ftp://host/x".data = false ∧
    isValidImageUrl "not-a-url".data = false ∧
    isValidImageUrl "https://example.com/image.jpg".data = true := by
  refine ⟨?_, ?_, by decide, by decide, by decide, by decide, by decide⟩
  · intro h
    simp [blockedHostname, Bool.or_eq_true]
    tauto
  · intro s
    unfold isValidImageUrl
    cases hp : parseUrl s with
    | none => simp
    | some u =>
      by_cases hpr : u.protocol = "http:".data ∨ u.protocol = "https:".data
      · simp [hpr]
      · simp [hpr]

theorem isValidImageUrl_spec_instance :
    ∃ u, parseUrl "https://example.com/image.jpg".data = some u ∧
      (u.protocol = "http:".data ∨ u.protocol = "https:".data) ∧
      blockedHostname u.hostname = false :=
  (isValidImageUrl_spec.2.1 "https://example.com/image.jpg".data).mp (by decide)

/-! ## Path sanitization (`sanitizeFilePath`, `src/api.ts` 347–366)

Node's POSIX `path.normalize` / `path.join` / `path.resolve` are modelled
segment-wise: empty and `.` segments are dropped, `..` pops a previous
segment (or is kept/dropped at the start of a relative/absolute path);
`resolve` prepends the current working directory to a relative path.
Trailing-slash preservation of `normalize` is irrelevant here because
`resolve` strips it and the joined suffix is a bare filename. -/

/-- Split on `/`, keeping empty segments. -/
def splitSlash : List Char → List (List Char)
  | [] => [[]]
  | c :: rest =>
    let r := splitSlash rest
    if c = '/' then [] :: r
    else
      match r with
      | [] => [[c]]
      | s :: ss => (c :: s) :: ss

/-- One step of Node path normalization over a segment stack. -/
def normStep (isAbs : Bool) (stack : List (List Char)) (seg : List Char) :
    List (List Char) :=
  if seg = [] ∨ seg = ['.'] then stack
  else if seg = ['.', '.'] then
    match stack.getLast? with
    | some last => if last = ['.', '.'] then stack ++ [seg] else stack.dropLast
    | none => if isAbs then [] else [seg]
  else stack ++ [seg]

/-- Render normalized segments back into a path string. -/
def renderSegs (isAbs : Bool) (segs : List (List Char)) : List Char :=
  let body := (segs.intersperse ['/']).flatten
  if isAbs then '/' :: body
  else if body = [] then ['.'] else body

/-- Node `path.posix.normalize` (modulo trailing-slash preservation). -/
def normalizePath (p : List Char) : List Char :=
  if p = [] then ['.']
  else
    renderSegs (startsWithL ['/'] p)
      ((splitSlash p).foldl (normStep (startsWithL ['/'] p)) [])

/-- Node `path.posix.join` of two parts. -/
def pathJoin (a b : List Char) : List Char :=
  match ([a, b].filter (fun s => !s.isEmpty)) with
  | [] => ['.']
  | parts => normalizePath ((parts.intersperse ['/']).flatten)

/-- Node `path.posix.resolve cwd p` for an absolute `cwd`. -/
def pathResolve (cwd p : List Char) : List Char :=
  if startsWithL ['/'] p = true then normalizePath p
  else normalizePath (cwd ++ '/' :: p)

/-- The tilde expansion in `downloadImage` (`src/api.ts` 437–439):
a leading `~` is replaced by the caller's home directory via `path.join`. -/
def expandTilde (home p : List Char) : List Char :=
  if startsWithL ['~'] p = true then pathJoin home (p.drop 1) else p

/-- The characters `< > : " | ? *` replaced by `_`
(`filename.replace(/[<>:"|?*]/g, '_')`). -/
def replaceUnsafeChars (filename : List Char) : List Char :=
  filename.map (fun c =>
    if c = '<' ∨ c = '>' ∨ c = ':' ∨ c = '"' ∨ c = '|' ∨ c = '?' ∨ c = '*'
    then '_' else c)

/-- The traversal screen of `sanitizeFilePath`: `..`, `/` or `\` anywhere
in the filename. -/
def hasTraversal (filename : List Char) : Bool :=
  containsSub ['.', '.'] filename || filename.contains '/' || filename.contains '\\'

/-- Failure modes of the path sanitizer. -/
inductive PathError
  | pathTraversal
deriving DecidableEq

/-- `sanitizeFilePath` of `src/api.ts`: reject traversal characters,
replace unsafe characters, resolve the output directory, join, and verify
the result still starts with the resolved directory. -/
def sanitizeFilePath (cwd outputPath filename : List Char) :
    Except PathError (List Char) :=
  if hasTraversal filename = true then .error .pathTraversal
  else
    let safeName := replaceUnsafeChars filename
    let safePath := pathResolve cwd outputPath
    let fullPath := pathJoin safePath safeName
    if startsWithL safePath fullPath = true then .ok fullPath
    else .error .pathTraversal

/-- C4: with the tilde-expanded output directory, sanitization fails with
`pathTraversal` exactly when the filename contains `..`, `/` or `\` or the
joined path does not start with the resolved directory; otherwise it
returns the join of the resolved directory with the filename whose unsafe
characters are replaced by `_`. -/
theorem sanitizeFilePath_spec (cwd home outputDir filename : List Char) :
    (sanitizeFilePath cwd (expandTilde home outputDir) filename =
        .error .pathTraversal ↔
      (hasTraversal filename = true ∨
        startsWithL (pathResolve cwd (expandTilde home outputDir))
          (pathJoin (pathResolve cwd (expandTilde home outputDir))
            (replaceUnsafeChars filename)) = false)) ∧
    (hasTraversal filename = false →
      startsWithL (pathResolve cwd (expandTilde home outputDir))
        (pathJoin (pathResolve cwd (expandTilde home outputDir))
          (replaceUnsafeChars filename)) = true →
      sanitizeFilePath cwd (expandTilde home outputDir) filename =
        .ok (pathJoin (pathResolve cwd (expandTilde home outputDir))
          (replaceUnsafeChars filename))) := by
  constructor
  · unfold sanitizeFilePath
    cases ht : hasTraversal filename with
    | true => simp
    | false =>
      cases hs : startsWithL (pathResolve cwd (expandTilde home outputDir))
          (pathJoin (pathResolve cwd (expandTilde home outputDir))
            (replaceUnsafeChars filename)) with
      | true => simp [hs]
      | false => simp [hs]
  · intro ht hs
    unfold sanitizeFilePath
    simp [ht, hs]

theorem sanitizeFilePath_spec_instance :
    (sanitizeFilePath "/cwd".data (expandTilde "/home/user".data "~/pics".data)
        "a:b?.jpg".data = .ok "/home/user/pics/a_b_.jpg".data) ∧
    (sanitizeFilePath "/cwd".data (expandTilde "/home/user".data "~/pics".data)
        "../x".data = .error .pathTraversal) := by
  constructor
  · have h := (sanitizeFilePath_spec "/cwd".data "/home/user".data "~/pics".data
      "a:b?.jpg".data).2 (by decide) (by decide)
    rw [h]
    refine congrArg Except.ok ?_
    decide
  · exact (sanitizeFilePath_spec "/cwd".data "/home/user".data "~/pics".data
      "../x".data).1.mpr (Or.inl (by decide))

/-! ## Download pipeline (`detectImageFormat`, `downloadImage`) -/

/-- `buffer[i]` on bytes; every use is guarded by a length check, as in
the source. -/
def byteAt (buffer : List Nat) (i : Nat) : Nat := buffer.getD i 0

/-- The single-quote character, used in the SVG namespace check. -/
def squote : Char := Char.ofNat 39

/-- `xmlns="http://www.w3.org/2000/svg"` as a char list. -/
def svgNsDouble : List Char :=
  "xmlns=".data ++ ['"'] ++ "http://www.w3.org/2000/svg".data ++ ['"']

/-- The same namespace declaration with single quotes. -/
def svgNsSingle : List Char :=
  "xmlns=".data ++ [squote] ++ "http://www.w3.org/2000/svg".data ++ [squote]

/-- `detectImageFormat` of `src/api.ts` (lines 256–315): magic-byte
dispatch returning `(extension, mimeType)`, with a text-based SVG fallback
over the first 1000 bytes (byte-per-char decoding; the ASCII substrings
searched for are unaffected by multi-byte UTF-8 sequences). -/
def detectImageFormat (buffer : List Nat) : Option (List Char × List Char) :=
  if buffer.length ≥ 3 ∧ byteAt buffer 0 = 0xFF ∧ byteAt buffer 1 = 0xD8 ∧
      byteAt buffer 2 = 0xFF then
    some ("jpg".data, "image/jpeg".data)
  else if buffer.length ≥ 8 ∧ byteAt buffer 0 = 0x89 ∧ byteAt buffer 1 = 0x50 ∧
      byteAt buffer 2 = 0x4E ∧ byteAt buffer 3 = 0x47 ∧ byteAt buffer 4 = 0x0D ∧
      byteAt buffer 5 = 0x0A ∧ byteAt buffer 6 = 0x1A ∧ byteAt buffer 7 = 0x0A then
    some ("png".data, "image/png".data)
  else if buffer.length ≥ 6 ∧ byteAt buffer 0 = 0x47 ∧ byteAt buffer 1 = 0x49 ∧
      byteAt buffer 2 = 0x46 ∧ byteAt buffer 3 = 0x38 ∧
      (byteAt buffer 4 = 0x37 ∨ byteAt buffer 4 = 0x39) ∧ byteAt buffer 5 = 0x61 then
    some ("gif".data, "image/gif".data)
  else if buffer.length ≥ 12 ∧ byteAt buffer 0 = 0x52 ∧ byteAt buffer 1 = 0x49 ∧
      byteAt buffer 2 = 0x46 ∧ byteAt buffer 3 = 0x46 ∧ byteAt buffer 8 = 0x57 ∧
      byteAt buffer 9 = 0x45 ∧ byteAt buffer 10 = 0x42 ∧ byteAt buffer 11 = 0x50 then
    some ("webp".data, "image/webp".data)
  else if buffer.length ≥ 2 ∧ byteAt buffer 0 = 0x42 ∧ byteAt buffer 1 = 0x4D then
    some ("bmp".data, "image/bmp".data)
  else if buffer.length ≥ 4 ∧ byteAt buffer 0 = 0x00 ∧ byteAt buffer 1 = 0x00 ∧
      byteAt buffer 2 = 0x01 ∧ byteAt buffer 3 = 0x00 then
    some ("ico".data, "image/x-icon".data)
  else if buffer.length ≥ 4 ∧ byteAt buffer 0 = 0x49 ∧ byteAt buffer 1 = 0x49 ∧
      byteAt buffer 2 = 0x2A ∧ byteAt buffer 3 = 0x00 then
    some ("tiff".data, "image/tiff".data)
  else if buffer.length ≥ 4 ∧ byteAt buffer 0 = 0x4D ∧ byteAt buffer 1 = 0x4D ∧
      byteAt buffer 2 = 0x00 ∧ byteAt buffer 3 = 0x2A then
    some ("tiff".data, "image/tiff".data)
  else
    let textContent := (buffer.take 1000).map Char.ofNat
    if containsSub "<svg".data textContent = true ∧
        (containsSub svgNsDouble textContent = true ∨
          containsSub svgNsSingle textContent = true) then
      some ("svg".data, "image/svg+xml".data)
    else none

/-- `baseFilename.replace(/\.[^/.]+$/, '')`: strip a final extension (a
dot followed by one or more characters none of which is `/` or `.`). -/
def cleanBaseFilename (l : List Char) : List Char :=
  let rev := l.reverse
  let seg := rev.takeWhile (fun c => !(c == '.') && !(c == '/'))
  match rev.drop seg.length with
  | '.' :: rest2 => if seg = [] then l else rest2.reverse
  | _ => l

/-- Filesystem/network effects of one `downloadImage` call, in order. -/
inductive DlEvent
  | mkdir (p : List Char)
  | fetch (url : List Char)
  | write (p : List Char)
  | removeFile (p : List Char)
deriving DecidableEq

/-- Failure modes of `downloadImage`. -/
inductive DlError
  | unsafeUrl
  | fetchFailed
  | formatUndetected
  | pathTraversal
  | writeFailed
deriving DecidableEq

/-- Recognizes a file-removal event. -/
def isRemoveEvent : DlEvent → Bool
  | .removeFile _ => true
  | _ => false

/-- `downloadImage` of `src/api.ts` (lines 423–480): validate the URL,
expand `~`, create the output directory if missing, fetch into a buffer,
sniff the format (failing rather than guessing), build the final filename,
sanitize the path, and write.  The environment is an oracle: `dirExists`
is the `fs.existsSync` answer, `fetchResult` the axios outcome (`none` =
network failure), `writeOk` whether `fs.writeFileSync` succeeds.  The
second component is the trace of effects performed.  The `catch` block
only logs and rethrows: no event follows a failed step. -/
def downloadImage (cwd home : List Char) (dirExists : Bool)
    (fetchResult : Option (List Nat)) (writeOk : Bool)
    (imageUrl outputPath baseFilename : List Char) :
    Except DlError (List Char) × List DlEvent :=
  if isValidImageUrl imageUrl = false then (.error .unsafeUrl, [])
  else
    let expandedOutputPath := expandTilde home outputPath
    let dirEvents := if dirExists then [] else [DlEvent.mkdir expandedOutputPath]
    match fetchResult with
    | none => (.error .fetchFailed, dirEvents ++ [DlEvent.fetch imageUrl])
    | some buffer =>
      match detectImageFormat buffer with
      | none => (.error .formatUndetected, dirEvents ++ [DlEvent.fetch imageUrl])
      | some fmt =>
        let finalFilename := cleanBaseFilename baseFilename ++ '.' :: fmt.1
        match sanitizeFilePath cwd expandedOutputPath finalFilename with
        | .error _ => (.error .pathTraversal, dirEvents ++ [DlEvent.fetch imageUrl])
        | .ok fullPath =>
          if writeOk then
            (.ok fullPath, dirEvents ++ [DlEvent.fetch imageUrl, DlEvent.write fullPath])
          else
            (.error .writeFailed,
             dirEvents ++ [DlEvent.fetch imageUrl, DlEvent.write fullPath])

/-- C6: an invalid URL fails with the unsafe-URL error before any fetch
event; an undetectable format fails with the format-undetected error and
no write event ever occurs. -/
theorem downloadImage_validation_spec (cwd home : List Char) (dirExists : Bool)
    (fetchResult : Option (List Nat)) (writeOk : Bool)
    (imageUrl outputPath baseFilename : List Char) :
    (isValidImageUrl imageUrl = false →
      downloadImage cwd home dirExists fetchResult writeOk imageUrl outputPath
          baseFilename = (.error .unsafeUrl, []) ∧
      ∀ u, DlEvent.fetch u ∉
        (downloadImage cwd home dirExists fetchResult writeOk imageUrl outputPath
          baseFilename).2) ∧
    (∀ buffer, isValidImageUrl imageUrl = true → fetchResult = some buffer →
      detectImageFormat buffer = none →
      (downloadImage cwd home dirExists fetchResult writeOk imageUrl outputPath
          baseFilename).1 = .error .formatUndetected ∧
      ∀ p, DlEvent.write p ∉
        (downloadImage cwd home dirExists fetchResult writeOk imageUrl outputPath
          baseFilename).2) := by
  constructor
  · intro hv
    have he : downloadImage cwd home dirExists fetchResult writeOk imageUrl
        outputPath baseFilename = (.error .unsafeUrl, []) := by
      unfold downloadImage
      simp [hv]
    refine ⟨he, fun u => ?_⟩
    rw [he]
    simp
  · intro buffer hv hbuf hdet
    have he : downloadImage cwd home dirExists fetchResult writeOk imageUrl
        outputPath baseFilename = (.error .formatUndetected,
          (if dirExists then [] else [DlEvent.mkdir (expandTilde home outputPath)]) ++
            [DlEvent.fetch imageUrl]) := by
      unfold downloadImage
      rw [hbuf]
      simp [hv, hdet]
    rw [he]
    exact ⟨rfl, fun p => by cases dirExists <;> simp⟩

theorem downloadImage_validation_spec_instance :
    downloadImage "/w".data "/h".data true none true
        "http://169.254.169.254/x".data "/tmp/out".data "f.jpg".data =
      (.error .unsafeUrl, []) ∧
    (downloadImage "/w".data "/h".data true (some [0, 1, 2]) true
        "https://example.com/a".data "/tmp/out".data "f.jpg".data).1 =
      .error .formatUndetected := by
  constructor
  · exact ((downloadImage_validation_spec "/w".data "/h".data true none true
      "http://169.254.169.254/x".data "/tmp/out".data "f.jpg".data).1 (by decide)).1
  · exact ((downloadImage_validation_spec "/w".data "/h".data true (some [0, 1, 2])
      true "https://example.com/a".data "/tmp/out".data "f.jpg".data).2
      [0, 1, 2] (by decide) rfl (by decide)).1

/-- C10: once the URL passes validation the directory-existence check and
(if needed) creation happen before the fetch event, for every outcome of
the later stages; with `dirExists = false` the mkdir event is always in
the trace, whether or not the download succeeds. -/
theorem downloadImage_mkdir_spec (cwd home : List Char) (dirExists : Bool)
    (fetchResult : Option (List Nat)) (writeOk : Bool)
    (imageUrl outputPath baseFilename : List Char)
    (hv : isValidImageUrl imageUrl = true) :
    (∃ rest,
      (downloadImage cwd home dirExists fetchResult writeOk imageUrl outputPath
          baseFilename).2 =
        (if dirExists then [] else [DlEvent.mkdir (expandTilde home outputPath)]) ++
          DlEvent.fetch imageUrl :: rest) ∧
    (dirExists = false →
      DlEvent.mkdir (expandTilde home outputPath) ∈
        (downloadImage cwd home dirExists fetchResult writeOk imageUrl outputPath
          baseFilename).2) := by
  have main : ∃ rest,
      (downloadImage cwd home dirExists fetchResult writeOk imageUrl outputPath
          baseFilename).2 =
        (if dirExists then [] else [DlEvent.mkdir (expandTilde home outputPath)]) ++
          DlEvent.fetch imageUrl :: rest := by
    cases fetchResult with
    | none => exact ⟨[], by unfold downloadImage; simp [hv]⟩
    | some buffer =>
      cases hdet : detectImageFormat buffer with
      | none => exact ⟨[], by unfold downloadImage; simp [hv, hdet]⟩
      | some fmt =>
        cases hsan : sanitizeFilePath cwd (expandTilde home outputPath)
            (cleanBaseFilename baseFilename ++ '.' :: fmt.1) with
        | error pe => exact ⟨[], by unfold downloadImage; simp [hv, hdet, hsan]⟩
        | ok fullPath =>
          cases writeOk with
          | true =>
            exact ⟨[DlEvent.write fullPath],
              by unfold downloadImage; simp [hv, hdet, hsan]⟩
          | false =>
            exact ⟨[DlEvent.write fullPath],
              by unfold downloadImage; simp [hv, hdet, hsan]⟩
  refine ⟨main, fun hde => ?_⟩
  obtain ⟨rest, hr⟩ := main
  rw [hr, hde]
  simp

theorem downloadImage_mkdir_spec_instance :
    DlEvent.mkdir (expandTilde "/h".data "/tmp/newdir".data) ∈
      (downloadImage "/w".data "/h".data false none true
        "https://example.com/a".data "/tmp/newdir".data "f.jpg".data).2 :=
  (downloadImage_mkdir_spec "/w".data "/h".data false none true
    "https://example.com/a".data "/tmp/newdir".data "f.jpg".data (by decide)).2 rfl

/-- A four-byte JPEG buffer (FF D8 FF signature). -/
def jpegBytes : List Nat := [0xFF, 0xD8, 0xFF, 0x00]

/-- C3 counterexample: a download whose final write fails propagates the
write error while its effect trace contains the write to the target path
and no file-removal event at all — the `catch` block of `downloadImage`
only logs and rethrows, so no partial-file cleanup happens. -/
theorem downloadImage_no_cleanup_cex :
    (downloadImage "/w".data "/h".data true (some jpegBytes) false
        "https://example.com/i.jpg".data "/tmp/out".data "img".data).1 =
      .error .writeFailed ∧
    DlEvent.write "/tmp/out/img.jpg".data ∈
      (downloadImage "/w".data "/h".data true (some jpegBytes) false
        "https://example.com/i.jpg".data "/tmp/out".data "img".data).2 ∧
    ((downloadImage "/w".data "/h".data true (some jpegBytes) false
        "https://example.com/i.jpg".data "/tmp/out".data "img".data).2.all
      (fun e => !isRemoveEvent e)) = true := by
  refine ⟨?_, ?_, ?_⟩ <;> decide

/-- C3 (amended): when the final write fails after a successful fetch,
format detection and path sanitization, `downloadImage` propagates the
write error; it performs no removal of the partially written file (its
trace has the write event and never a remove event). -/
theorem downloadImage_write_failure_spec (cwd home : List Char) (dirExists : Bool)
    (buffer : List Nat) (imageUrl outputPath baseFilename fullPath : List Char)
    (fmt : List Char × List Char)
    (hv : isValidImageUrl imageUrl = true)
    (hdet : detectImageFormat buffer = some fmt)
    (hsan : sanitizeFilePath cwd (expandTilde home outputPath)
        (cleanBaseFilename baseFilename ++ '.' :: fmt.1) = .ok fullPath) :
    (downloadImage cwd home dirExists (some buffer) false imageUrl outputPath
        baseFilename).1 = .error .writeFailed ∧
    DlEvent.write fullPath ∈
      (downloadImage cwd home dirExists (some buffer) false imageUrl outputPath
        baseFilename).2 ∧
    ((downloadImage cwd home dirExists (some buffer) false imageUrl outputPath
        baseFilename).2.all (fun e => !isRemoveEvent e)) = true := by
  have he : downloadImage cwd home dirExists (some buffer) false imageUrl
      outputPath baseFilename = (.error .writeFailed,
        (if dirExists then [] else [DlEvent.mkdir (expandTilde home outputPath)]) ++
          [DlEvent.fetch imageUrl, DlEvent.write fullPath]) := by
    unfold downloadImage
    simp [hv, hdet, hsan]
  rw [he]
  refine ⟨rfl, ?_, ?_⟩ <;> cases dirExists <;> simp [isRemoveEvent]

theorem downloadImage_write_failure_instance :
    (downloadImage "/w".data "/h".data true (some jpegBytes) false
        "https://example.com/j.jpg".data "/tmp/out2".data "img".data).1 =
      .error .writeFailed :=
  (downloadImage_write_failure_spec "/w".data "/h".data true jpegBytes
    "https://example.com/j.jpg".data "/tmp/out2".data "img".data
    "/tmp/out2/img.jpg".data ("jpg".data, "image/jpeg".data)
    (by decide) rfl rfl).1
